import Mathlib

/-!
Verification of the cafeteria queueing simulator (`src/simulation/cafeteria_model.py`,
`src/simulation/ai_predictor.py`, `src/simulation/statistics.py`, `src/app.py`).

The Python engine drives a SimPy discrete-event loop.  We embed it shallowly:

* all clock values and durations are exact rationals (the Python floats);
* the two families of `random.expovariate` draws become two explicit input
  streams `inter : ℕ → ℚ` (inter-arrival times, drawn in `customer_generator`)
  and `svc : ℕ → ℚ` (service times, drawn in `customer_process` at the moment a
  server is acquired), indexed in draw order;
* the SimPy event loop specialises, for this program, to a step function that
  repeatedly processes the earliest pending event strictly below the horizon
  `sim_time` — exactly the behaviour of `env.run(until=sim_time)`, which stops
  at the high-priority stop event at `sim_time` and leaves every event whose
  time is ≥ `sim_time` unprocessed.  Pending events are: the next arrival of
  `customer_generator` and the service completions of the customers currently
  holding a server.  When an arrival and a completion are scheduled at the same
  instant we process the completion first (SimPy breaks such ties by event id;
  the concrete inputs used below never produce ties, and the invariants proved
  here hold under either order).

Numerical kernels of numpy/scipy/sklearn that are irrational over ℚ
(square roots, distribution quantiles, test statistics) are passed in as
explicit oracle functions; everything else is computed exactly.
-/

/-- Python's `round(x, d)`: round to `d` decimal digits.  (CPython rounds
half-to-even on floats; Mathlib's `round` rounds half-up.  The two differ only
on exact midpoints, which none of the properties below depend on.) -/
def pyRound (d : ℕ) (q : ℚ) : ℚ := ((round (q * 10 ^ d) : ℤ) : ℚ) / 10 ^ d

/-- `np.mean` of a list of rationals (0/0 = 0 for the empty list, but every
call site guards emptiness exactly as the Python does). -/
def npMean (l : List ℚ) : ℚ := l.sum / l.length

/-- `np.var` with the numpy default `ddof=0`: mean squared deviation. -/
def npVar (l : List ℚ) : ℚ := ((l.map (fun x => (x - npMean l) ^ 2)).sum) / l.length

/-- The constructor arguments of `CafeteriaSimulation.__init__`
(`cafeteria_model.py` lines 23–38).  `num_servers` and `queue_capacity` are the
integers produced by `int(...)` in `app.py`; the data model of the spec
constrains them to be non-negative, which we reflect by using `ℕ`. -/
structure SimConfig where
  arrival_rate : ℚ
  service_rate : ℚ
  num_servers : ℕ
  sim_time : ℚ
  queue_capacity : ℕ
deriving DecidableEq, Repr

/-- A customer currently holding a server: its arrival instant, the instant its
service started, and the drawn service duration.  Its completion event is
scheduled at `start + svc` (`yield env.timeout(service_time)`, line 95). -/
structure InService where
  arrival : ℚ
  start : ℚ
  svc : ℚ
deriving DecidableEq, Repr

/-- The virtual-clock time of the pending service-completion event. -/
def InService.finish (x : InService) : ℚ := x.start + x.svc

/-- The per-run mutable state of `CafeteriaSimulation` (lines 40–49) together
with the scheduler bookkeeping of the specialised event loop: the current
clock `now`, the scheduled time of the generator's next arrival, the next
unread index of each random stream, the customers holding a server and the
FIFO queue of waiting customers (their arrival instants, in arrival order —
`simpy.Resource` grants freed servers in request order). -/
structure SimState where
  now : ℚ
  nextArrival : ℚ
  arrivalIdx : ℕ
  svcIdx : ℕ
  inService : List InService
  queue : List ℚ
  customers_served : ℕ
  customers_rejected : ℕ
  wait_times : List ℚ
  service_times : List ℚ
  system_times : List ℚ
  queue_lengths : List ℕ
  arrival_times : List ℚ
  server_busy_time : ℚ
  max_queue_length : ℕ
deriving DecidableEq, Repr

/-- Initial state: clock at 0, the generator has drawn its first inter-arrival
time (line 58) and scheduled the first arrival; all metrics empty/zero. -/
def initState (inter : ℕ → ℚ) : SimState :=
  { now := 0
    nextArrival := inter 0
    arrivalIdx := 1
    svcIdx := 0
    inService := []
    queue := []
    customers_served := 0
    customers_rejected := 0
    wait_times := []
    service_times := []
    system_times := []
    queue_lengths := []
    arrival_times := []
    server_busy_time := 0
    max_queue_length := 0 }

/-- Select the customer with the earliest pending completion event, returning
it together with the remaining customers.  Among equal completion times the
one that started service first (earlier in the list) wins, which matches
SimPy's event-id tie-breaking for timeouts scheduled earlier. -/
def extractMin : List InService → Option (InService × List InService)
  | [] => none
  | x :: xs =>
    match extractMin xs with
    | none => some (x, [])
    | some (m, rest) =>
      if x.finish ≤ m.finish then some (x, xs) else some (m, x :: rest)

/-- One arrival event (`customer_generator`, lines 56–68, plus — when the
customer is admitted — the prefix of `customer_process` up to its first
suspension, lines 74–87, which SimPy runs at the same instant and before any
later event).  The arrival instant is recorded (line 62); if the waiting line
is strictly shorter than `queue_capacity` the customer is admitted (line 65):
its queue-length observation is recorded (lines 77–79) and it requests a
server, acquiring one immediately (wait time 0, service drawn, lines 86–91)
when one is free, otherwise joining the FIFO line.  Otherwise it is rejected
(line 68).  Finally the generator draws the next inter-arrival time and
schedules the next arrival (lines 58–59). -/
def processArrival (cfg : SimConfig) (inter svc : ℕ → ℚ) (s : SimState) : SimState :=
  let t := s.nextArrival
  let base := { s with
    now := t
    arrival_times := s.arrival_times ++ [t]
    nextArrival := t + inter s.arrivalIdx
    arrivalIdx := s.arrivalIdx + 1 }
  if s.queue.length < cfg.queue_capacity then
    let q := s.queue.length
    let admitted := { base with
      queue_lengths := base.queue_lengths ++ [q]
      max_queue_length := max base.max_queue_length q }
    if s.inService.length < cfg.num_servers then
      { admitted with
        wait_times := admitted.wait_times ++ [t - t]
        service_times := admitted.service_times ++ [svc s.svcIdx]
        svcIdx := s.svcIdx + 1
        inService := admitted.inService ++ [⟨t, t, svc s.svcIdx⟩] }
    else { admitted with queue := admitted.queue ++ [t] }
  else { base with customers_rejected := base.customers_rejected + 1 }

/-- One service-completion event (`customer_process`, lines 96–103, plus the
release of the server at the end of the `with` block): the finishing customer
records its system time, the served counter and the busy-time accumulator are
bumped (by the drawn `service_time`, line 103), and — the release — the
longest-waiting queued customer, if any, acquires the freed server at this
same instant: its wait time is recorded and its service duration drawn
(lines 86–91). -/
def processCompletion (svc : ℕ → ℚ) (s : SimState) (x : InService)
    (rest : List InService) : SimState :=
  let d := x.finish
  let base := { s with
    now := d
    system_times := s.system_times ++ [d - x.arrival]
    customers_served := s.customers_served + 1
    server_busy_time := s.server_busy_time + x.svc }
  match s.queue with
  | [] => { base with inService := rest }
  | a :: qs =>
    { base with
      queue := qs
      wait_times := base.wait_times ++ [d - a]
      service_times := base.service_times ++ [svc s.svcIdx]
      svcIdx := s.svcIdx + 1
      inService := rest ++ [⟨a, d, svc s.svcIdx⟩] }

/-- One iteration of `env.run(until=sim_time)` (line 119): process the earliest
pending event if its time is strictly below `sim_time`, otherwise stop
(`none`).  Events at or after `sim_time` are never processed: SimPy's stop
event at `sim_time` has urgent priority and fires first. -/
def stepSim (cfg : SimConfig) (inter svc : ℕ → ℚ) (s : SimState) : Option SimState :=
  match extractMin s.inService with
  | some (x, rest) =>
    if x.finish ≤ s.nextArrival then
      if x.finish < cfg.sim_time then some (processCompletion svc s x rest) else none
    else
      if s.nextArrival < cfg.sim_time then some (processArrival cfg inter svc s) else none
  | none =>
    if s.nextArrival < cfg.sim_time then some (processArrival cfg inter svc s) else none

/-- The state after `n` scheduler iterations (staying put once the run has
finished). -/
def simSteps (cfg : SimConfig) (inter svc : ℕ → ℚ) : ℕ → SimState
  | 0 => initState inter
  | n + 1 =>
    match stepSim cfg inter svc (simSteps cfg inter svc n) with
    | some s2 => s2
    | none => simSteps cfg inter svc n

/-- The run is complete after `n` iterations: no pending event lies strictly
before the horizon, so `env.run(until=sim_time)` has returned. -/
def Finished (cfg : SimConfig) (inter svc : ℕ → ℚ) (n : ℕ) : Prop :=
  stepSim cfg inter svc (simSteps cfg inter svc n) = none

/-- The dictionary returned by `calculate_metrics` (lines 151–186). -/
structure SimResults where
  customers_served : ℕ
  customers_rejected : ℕ
  avg_wait_time : ℚ
  avg_service_time : ℚ
  avg_system_time : ℚ
  avg_queue_length : ℚ
  max_queue_length : ℕ
  server_utilization : ℚ
  var_wait_time : ℚ
  var_service_time : ℚ
  std_wait_time : ℚ
  std_service_time : ℚ
  effective_arrival_rate : ℚ
  rejection_probability : ℚ
  wait_times : List ℚ
  service_times : List ℚ
  queue_lengths : List ℕ
  arrival_times : List ℚ
  input_params : SimConfig
deriving DecidableEq, Repr

/-- `calculate_metrics` (lines 126–186), computed from the final run state.
Every aggregate is computed over the full recorded series; only the four raw
series in the returned bundle are cut to their first 100 entries (lines
173–176).  `np.sqrt`, irrational over ℚ, is passed in as the oracle
`sqrtFn` (used only for the two standard-deviation fields, lines 165–166). -/
def calculate_metrics (sqrtFn : ℚ → ℚ) (cfg : SimConfig) (s : SimState) : SimResults :=
  let avg_wait_time := if s.wait_times ≠ [] then npMean s.wait_times else 0
  let avg_service_time := if s.service_times ≠ [] then npMean s.service_times else 0
  let avg_system_time := if s.system_times ≠ [] then npMean s.system_times else 0
  let avg_queue_length :=
    if s.queue_lengths ≠ [] then npMean (s.queue_lengths.map (fun n => (n : ℚ))) else 0
  let total_server_time : ℚ := (cfg.num_servers : ℚ) * cfg.sim_time
  let server_utilization :=
    if total_server_time > 0 then s.server_busy_time / total_server_time else 0
  let var_wait_time := if 1 < s.wait_times.length then npVar s.wait_times else 0
  let var_service_time := if 1 < s.service_times.length then npVar s.service_times else 0
  let effective_arrival_rate :=
    if cfg.sim_time > 0 then (s.arrival_times.length : ℚ) / cfg.sim_time else 0
  let total_arrivals := s.customers_served + s.customers_rejected
  let rejection_probability :=
    if 0 < total_arrivals then (s.customers_rejected : ℚ) / (total_arrivals : ℚ) else 0
  { customers_served := s.customers_served
    customers_rejected := s.customers_rejected
    avg_wait_time := pyRound 2 avg_wait_time
    avg_service_time := pyRound 2 avg_service_time
    avg_system_time := pyRound 2 avg_system_time
    avg_queue_length := pyRound 2 avg_queue_length
    max_queue_length := s.max_queue_length
    server_utilization := pyRound 4 server_utilization
    var_wait_time := pyRound 2 var_wait_time
    var_service_time := pyRound 2 var_service_time
    std_wait_time := pyRound 2 (sqrtFn var_wait_time)
    std_service_time := pyRound 2 (sqrtFn var_service_time)
    effective_arrival_rate := pyRound 4 effective_arrival_rate
    rejection_probability := pyRound 4 rejection_probability
    wait_times := (s.wait_times.take 100).map (pyRound 2)
    service_times := (s.service_times.take 100).map (pyRound 2)
    queue_lengths := s.queue_lengths.take 100
    arrival_times := (s.arrival_times.take 100).map (pyRound 2)
    input_params := cfg }

/-- The attributes assigned by `CafeteriaSimulation.__init__` (lines 34–49):
the five parameters stored verbatim plus the zeroed metric accumulators.
Here `num_servers` and `queue_capacity` are `ℤ`, since `app.py` produces them
with `int(...)` and the constructor accepts any integer. -/
structure CafeteriaInit where
  arrival_rate : ℚ
  service_rate : ℚ
  num_servers : ℤ
  sim_time : ℚ
  queue_capacity : ℤ
  customers_served : ℕ
  customers_rejected : ℕ
  wait_times : List ℚ
  service_times : List ℚ
  system_times : List ℚ
  queue_lengths : List ℕ
  arrival_times : List ℚ
  server_busy_time : ℚ
  max_queue_length : ℕ
deriving DecidableEq, Repr

/-- `CafeteriaSimulation.__init__` (lines 23–49).  The body is a sequence of
plain attribute assignments: it contains no parameter check and no `raise`
statement, and no `ConfigurationError` class is defined anywhere in the
repository.  The `Except String` codomain models Python's exception channel;
the constructor always succeeds. -/
def CafeteriaSimulation_init (arrival_rate service_rate : ℚ) (num_servers : ℤ)
    (sim_time : ℚ) (queue_capacity : ℤ) : Except String CafeteriaInit :=
  Except.ok
    { arrival_rate := arrival_rate
      service_rate := service_rate
      num_servers := num_servers
      sim_time := sim_time
      queue_capacity := queue_capacity
      customers_served := 0
      customers_rejected := 0
      wait_times := []
      service_times := []
      system_times := []
      queue_lengths := []
      arrival_times := []
      server_busy_time := 0
      max_queue_length := 0 }

/- ### Arithmetic helper lemmas -/

lemma round_rat_mono {q r : ℚ} (h : q ≤ r) : round q ≤ round r := by
  rw [round_eq, round_eq]
  exact Int.floor_le_floor (by linarith)

lemma pyRound_mono (d : ℕ) {q r : ℚ} (h : q ≤ r) : pyRound d q ≤ pyRound d r := by
  unfold pyRound
  have hp : (0 : ℚ) < 10 ^ d := by positivity
  have h2 : round (q * 10 ^ d) ≤ round (r * 10 ^ d) :=
    round_rat_mono (by nlinarith)
  exact (div_le_div_iff_of_pos_right hp).mpr (by exact_mod_cast h2)

lemma pyRound_zero (d : ℕ) : pyRound d 0 = 0 := by
  simp [pyRound]

lemma pyRound_one (d : ℕ) : pyRound d 1 = 1 := by
  have hp : (10 : ℚ) ^ d ≠ 0 := by positivity
  have h10 : ((10 : ℚ) ^ d) = ((10 ^ d : ℤ) : ℚ) := by push_cast; ring
  unfold pyRound
  rw [one_mul, h10, round_intCast]
  rw [← h10]
  exact div_self hp

lemma pyRound_unit_interval (d : ℕ) {q : ℚ} (h0 : 0 ≤ q) (h1 : q ≤ 1) :
    0 ≤ pyRound d q ∧ pyRound d q ≤ 1 := by
  constructor
  · have := pyRound_mono d h0
    rwa [pyRound_zero] at this
  · have := pyRound_mono d h1
    rwa [pyRound_one] at this

lemma sum_map_add_rat {α : Type} (l : List α) (f g : α → ℚ) :
    (l.map (fun y => f y + g y)).sum = (l.map f).sum + (l.map g).sum := by
  induction l with
  | nil => simp
  | cons x xs ih => simp [ih]; ring

lemma sum_map_const_rat {α : Type} (l : List α) (c : ℚ) :
    (l.map (fun _ => c)).sum = l.length * c := by
  induction l with
  | nil => simp
  | cons x xs ih => simp [ih]; ring

lemma sum_map_nonneg_rat {α : Type} (l : List α) (f : α → ℚ)
    (h : ∀ y ∈ l, 0 ≤ f y) : 0 ≤ (l.map f).sum := by
  induction l with
  | nil => simp
  | cons x xs ih =>
    simp only [List.map_cons, List.sum_cons]
    have hx := h x (by simp)
    have hxs := ih (fun y hy => h y (by simp [hy]))
    linarith

/- ### Lemmas about `extractMin` -/

lemma extractMin_eq_none {l : List InService} : extractMin l = none ↔ l = [] := by
  cases l with
  | nil => simp [extractMin]
  | cons x xs =>
    simp only [extractMin]
    cases h : extractMin xs with
    | none => simp
    | some p =>
      obtain ⟨m, rest⟩ := p
      by_cases hle : x.finish ≤ m.finish <;> simp [hle]

lemma extractMin_perm {l : List InService} {x : InService} {rest : List InService}
    (h : extractMin l = some (x, rest)) : l.Perm (x :: rest) := by
  induction l generalizing x rest with
  | nil => simp [extractMin] at h
  | cons a as ih =>
    simp only [extractMin] at h
    cases heq : extractMin as with
    | none =>
      rw [heq] at h
      have : as = [] := extractMin_eq_none.mp heq
      subst this
      simp at h
      obtain ⟨h1, h2⟩ := h
      subst h1; subst h2
      exact List.Perm.refl _
    | some p =>
      obtain ⟨m, mrest⟩ := p
      rw [heq] at h
      have hperm := ih heq
      by_cases hle : a.finish ≤ m.finish
      · simp [hle] at h
        obtain ⟨h1, h2⟩ := h
        subst h1; subst h2
        exact List.Perm.refl _
      · simp [hle] at h
        obtain ⟨h1, h2⟩ := h
        subst h1; subst h2
        exact List.Perm.trans (hperm.cons a) (List.Perm.swap m a mrest)

lemma extractMin_min {l : List InService} {x : InService} {rest : List InService}
    (h : extractMin l = some (x, rest)) : ∀ y ∈ l, x.finish ≤ y.finish := by
  induction l generalizing x rest with
  | nil => simp [extractMin] at h
  | cons a as ih =>
    simp only [extractMin] at h
    cases heq : extractMin as with
    | none =>
      rw [heq] at h
      have : as = [] := extractMin_eq_none.mp heq
      subst this
      simp at h
      obtain ⟨h1, _⟩ := h
      subst h1
      intro y hy
      simp at hy
      simp [hy]
    | some p =>
      obtain ⟨m, mrest⟩ := p
      rw [heq] at h
      have hmin := ih heq
      by_cases hle : a.finish ≤ m.finish
      · simp [hle] at h
        obtain ⟨h1, _⟩ := h
        subst h1
        intro y hy
        rcases List.mem_cons.mp hy with hy | hy
        · simp [hy]
        · exact le_trans hle (hmin y hy)
      · simp [hle] at h
        obtain ⟨h1, _⟩ := h
        subst h1
        intro y hy
        rcases List.mem_cons.mp hy with hy | hy
        · subst hy
          exact le_of_lt (lt_of_not_ge hle)
        · exact hmin y hy

/- ### Counting invariants of the event loop -/

/-- Structural counting invariant: capacity bounds and conservation of
customers.  Every generated arrival is accounted for as served, rejected,
waiting, or in service; every processed completion recorded a system time;
every started service recorded a service time. -/
def countInv (cfg : SimConfig) (s : SimState) : Prop :=
  s.inService.length ≤ cfg.num_servers ∧
  s.queue.length ≤ cfg.queue_capacity ∧
  s.customers_served + s.customers_rejected + s.queue.length + s.inService.length
      = s.arrival_times.length ∧
  s.customers_served = s.system_times.length ∧
  s.service_times.length = s.customers_served + s.inService.length

lemma countInv_init (cfg : SimConfig) (inter : ℕ → ℚ) :
    countInv cfg (initState inter) := by
  simp [countInv, initState]

lemma countInv_processArrival {cfg : SimConfig} {inter svc : ℕ → ℚ} {s : SimState}
    (h : countInv cfg s) : countInv cfg (processArrival cfg inter svc s) := by
  obtain ⟨h1, h2, h3, h4, h5⟩ := h
  unfold processArrival
  split_ifs with hq hs
  · exact ⟨by simpa using hs, by simpa using h2, by simp; omega, by simpa using h4,
      by simp; omega⟩
  · exact ⟨by simpa using h1, by simpa using hq, by simp; omega, by simpa using h4,
      by simpa using h5⟩
  · exact ⟨by simpa using h1, by simpa using h2, by simp; omega, by simpa using h4,
      by simpa using h5⟩

lemma countInv_processCompletion {cfg : SimConfig} {svc : ℕ → ℚ} {s : SimState}
    {x : InService} {rest : List InService}
    (h : countInv cfg s) (heq : extractMin s.inService = some (x, rest)) :
    countInv cfg (processCompletion svc s x rest) := by
  obtain ⟨h1, h2, h3, h4, h5⟩ := h
  have hlen : s.inService.length = rest.length + 1 := by
    simpa using (extractMin_perm heq).length_eq
  unfold processCompletion
  cases hq : s.queue with
  | nil =>
    refine ⟨by simp; omega, by simp, ?_, by simp; omega, by simp; omega⟩
    simp only [hq] at h3
    simp at h3 ⊢
    omega
  | cons a qs =>
    refine ⟨by simp; omega, ?_, ?_, by simp; omega, by simp; omega⟩
    · simp only [hq] at h2
      simp at h2 ⊢
      omega
    · simp only [hq] at h3
      simp at h3 ⊢
      omega

lemma countInv_step {cfg : SimConfig} {inter svc : ℕ → ℚ} {s s2 : SimState}
    (h : countInv cfg s) (hstep : stepSim cfg inter svc s = some s2) :
    countInv cfg s2 := by
  unfold stepSim at hstep
  cases heq : extractMin s.inService with
  | none =>
    rw [heq] at hstep
    split_ifs at hstep
    cases hstep
    exact countInv_processArrival h
  | some p =>
    obtain ⟨x, rest⟩ := p
    rw [heq] at hstep
    dsimp only at hstep
    by_cases hle : x.finish ≤ s.nextArrival
    · rw [if_pos hle] at hstep
      by_cases hlt : x.finish < cfg.sim_time
      · rw [if_pos hlt] at hstep
        cases hstep
        exact countInv_processCompletion h heq
      · rw [if_neg hlt] at hstep
        cases hstep
    · rw [if_neg hle] at hstep
      by_cases hlt : s.nextArrival < cfg.sim_time
      · rw [if_pos hlt] at hstep
        cases hstep
        exact countInv_processArrival h
      · rw [if_neg hlt] at hstep
        cases hstep

lemma countInv_simSteps (cfg : SimConfig) (inter svc : ℕ → ℚ) (n : ℕ) :
    countInv cfg (simSteps cfg inter svc n) := by
  induction n with
  | zero => exact countInv_init cfg inter
  | succ n ih =>
    show countInv cfg (simSteps cfg inter svc (n + 1))
    unfold simSteps
    cases hstep : stepSim cfg inter svc (simSteps cfg inter svc n) with
    | none => exact ih
    | some s2 => exact countInv_step ih hstep

/- ### Busy-time invariant of the event loop -/

/-- Inductive invariant bounding the accumulated server busy time: the clock
is non-negative, never beyond the horizon, and never past the next scheduled
events; each in-service customer started at or before the clock and finishes
at or after it; and the busy time already banked plus the in-progress service
time consumed so far never exceeds `num_servers · now` (at most `num_servers`
services run concurrently). -/
def busyInv (cfg : SimConfig) (s : SimState) : Prop :=
  0 ≤ s.now ∧
  s.now ≤ s.nextArrival ∧
  s.now ≤ cfg.sim_time ∧
  s.inService.length ≤ cfg.num_servers ∧
  0 ≤ s.server_busy_time ∧
  (∀ x ∈ s.inService, 0 ≤ x.svc ∧ x.start ≤ s.now ∧ s.now ≤ x.finish) ∧
  s.server_busy_time + ((s.inService.map (fun x => s.now - x.start)).sum)
      ≤ (cfg.num_servers : ℚ) * s.now

lemma busyInv_init (cfg : SimConfig) (inter : ℕ → ℚ)
    (hT : 0 ≤ cfg.sim_time) (hinter : ∀ i, 0 ≤ inter i) :
    busyInv cfg (initState inter) := by
  refine ⟨le_refl 0, by simpa [initState] using hinter 0, by simpa [initState] using hT,
    by simp [initState], by simp [initState], by simp [initState], by simp [initState]⟩

lemma busyInv_processArrival {cfg : SimConfig} {inter svc : ℕ → ℚ} {s : SimState}
    (hinter : ∀ i, 0 ≤ inter i) (hsvc : ∀ i, 0 ≤ svc i)
    (h : busyInv cfg s) (hlt : s.nextArrival < cfg.sim_time)
    (hfin : ∀ x ∈ s.inService, s.nextArrival ≤ x.finish) :
    busyInv cfg (processArrival cfg inter svc s) := by
  obtain ⟨h0, hna, hT, hlen, hbusy, hmem, hsum⟩ := h
  have hnow0 : (0 : ℚ) ≤ s.nextArrival := le_trans h0 hna
  have hshift : (s.inService.map (fun x => s.nextArrival - x.start)).sum
      = (s.inService.map (fun x => s.now - x.start)).sum
        + s.inService.length * (s.nextArrival - s.now) := by
    have hfun : (fun x : InService => s.nextArrival - x.start)
        = fun x : InService => (s.now - x.start) + (s.nextArrival - s.now) := by
      funext x; ring
    rw [hfun]
    rw [sum_map_add_rat s.inService (fun x => s.now - x.start) (fun _ => s.nextArrival - s.now)]
    rw [sum_map_const_rat]
  have hlenq : (s.inService.length : ℚ) ≤ (cfg.num_servers : ℚ) := by exact_mod_cast hlen
  have hsum2 : s.server_busy_time + (s.inService.map (fun x => s.nextArrival - x.start)).sum
      ≤ (cfg.num_servers : ℚ) * s.nextArrival := by
    rw [hshift]
    nlinarith [mul_le_mul_of_nonneg_right hlenq (sub_nonneg.mpr hna)]
  unfold processArrival
  split_ifs with hq hs
  · -- admitted, a server is free: service starts now
    refine ⟨by simpa using hnow0, by simpa using hinter s.arrivalIdx,
      by simpa using le_of_lt hlt, by simpa using hs, by simpa using hbusy, ?_, ?_⟩
    · intro x hx
      simp only [List.mem_append, List.mem_singleton] at hx
      rcases hx with hx | hx
      · obtain ⟨ha, hb, _⟩ := hmem x (by simpa using hx)
        exact ⟨ha, le_trans hb hna, hfin x (by simpa using hx)⟩
      · subst hx
        refine ⟨hsvc s.svcIdx, le_refl _, ?_⟩
        simp [InService.finish, hsvc s.svcIdx]
    · simp only [List.map_append, List.sum_append, List.map_cons, List.map_nil,
        List.sum_cons, List.sum_nil]
      simpa using hsum2
  · -- admitted, all servers busy: joins the queue
    refine ⟨by simpa using hnow0, by simpa using hinter s.arrivalIdx,
      by simpa using le_of_lt hlt, by simpa using hlen, by simpa using hbusy, ?_, ?_⟩
    · intro x hx
      obtain ⟨ha, hb, _⟩ := hmem x (by simpa using hx)
      exact ⟨ha, le_trans hb hna, hfin x (by simpa using hx)⟩
    · simpa using hsum2
  · -- rejected
    refine ⟨by simpa using hnow0, by simpa using hinter s.arrivalIdx,
      by simpa using le_of_lt hlt, by simpa using hlen, by simpa using hbusy, ?_, ?_⟩
    · intro x hx
      obtain ⟨ha, hb, _⟩ := hmem x (by simpa using hx)
      exact ⟨ha, le_trans hb hna, hfin x (by simpa using hx)⟩
    · simpa using hsum2

lemma busyInv_processCompletion {cfg : SimConfig} {svc : ℕ → ℚ} {s : SimState}
    {x : InService} {rest : List InService}
    (hsvc : ∀ i, 0 ≤ svc i)
    (h : busyInv cfg s)
    (heq : extractMin s.inService = some (x, rest))
    (hle : x.finish ≤ s.nextArrival) (hltT : x.finish < cfg.sim_time) :
    busyInv cfg (processCompletion svc s x rest) := by
  obtain ⟨h0, hna, hT, hlen, hbusy, hmem, hsum⟩ := h
  have hperm := extractMin_perm heq
  have hmin := extractMin_min heq
  have hxmem : x ∈ s.inService := hperm.mem_iff.mpr (by simp)
  obtain ⟨hxsvc, hxstart, hxfin⟩ := hmem x hxmem
  have hdnow : s.now ≤ x.finish := hxfin
  have hd0 : (0 : ℚ) ≤ x.finish := le_trans h0 hdnow
  have hlenrest : s.inService.length = rest.length + 1 := by simpa using hperm.length_eq
  have hsumperm : (s.inService.map (fun y => s.now - y.start)).sum
      = (s.now - x.start) + (rest.map (fun y => s.now - y.start)).sum := by
    simpa using (hperm.map (fun y => s.now - y.start)).sum_eq
  have hshift : (rest.map (fun y => x.finish - y.start)).sum
      = (rest.map (fun y => s.now - y.start)).sum + rest.length * (x.finish - s.now) := by
    have hfun : (fun y : InService => x.finish - y.start)
        = fun y : InService => (s.now - y.start) + (x.finish - s.now) := by
      funext y; ring
    rw [hfun, sum_map_add_rat rest (fun y => s.now - y.start) (fun _ => x.finish - s.now),
      sum_map_const_rat]
  have hlenq : (rest.length : ℚ) + 1 ≤ (cfg.num_servers : ℚ) := by
    have hn : rest.length + 1 ≤ cfg.num_servers := by omega
    exact_mod_cast hn
  rw [hsumperm] at hsum
  have hxeq : x.svc = x.finish - x.start := by rw [InService.finish]; ring
  have hrest_sum : s.server_busy_time + x.svc + (rest.map (fun y => x.finish - y.start)).sum
      ≤ (cfg.num_servers : ℚ) * x.finish := by
    rw [hshift]
    nlinarith [mul_le_mul_of_nonneg_right hlenq (sub_nonneg.mpr hdnow)]
  have hmemrest : ∀ y ∈ rest, 0 ≤ y.svc ∧ y.start ≤ x.finish ∧ x.finish ≤ y.finish := by
    intro y hy
    have hymem : y ∈ s.inService := hperm.mem_iff.mpr (by simp [hy])
    obtain ⟨hysvc, hystart, _⟩ := hmem y hymem
    exact ⟨hysvc, le_trans hystart hdnow, hmin y hymem⟩
  unfold processCompletion
  cases hq : s.queue with
  | nil =>
    refine ⟨by simpa using hd0, by simpa using hle, by simpa using le_of_lt hltT,
      by simp; omega, by simpa using add_nonneg hbusy hxsvc, ?_, ?_⟩
    · intro y hy
      simp only at hy
      exact hmemrest y hy
    · simpa using hrest_sum
  | cons a qs =>
    refine ⟨by simpa using hd0, by simpa using hle, by simpa using le_of_lt hltT,
      by simp; omega, by simpa using add_nonneg hbusy hxsvc, ?_, ?_⟩
    · intro y hy
      simp only [List.mem_append, List.mem_singleton] at hy
      rcases hy with hy | hy
      · exact hmemrest y hy
      · subst hy
        refine ⟨hsvc s.svcIdx, le_refl _, ?_⟩
        simp [InService.finish, hsvc s.svcIdx]
    · simp only [List.map_append, List.sum_append, List.map_cons, List.map_nil,
        List.sum_cons, List.sum_nil]
      simpa using hrest_sum

lemma busyInv_step {cfg : SimConfig} {inter svc : ℕ → ℚ} {s s2 : SimState}
    (hinter : ∀ i, 0 ≤ inter i) (hsvc : ∀ i, 0 ≤ svc i)
    (h : busyInv cfg s) (hstep : stepSim cfg inter svc s = some s2) :
    busyInv cfg s2 := by
  unfold stepSim at hstep
  cases heq : extractMin s.inService with
  | none =>
    rw [heq] at hstep
    have hnil : s.inService = [] := extractMin_eq_none.mp heq
    split_ifs at hstep with hlt
    cases hstep
    exact busyInv_processArrival hinter hsvc h hlt (by simp [hnil])
  | some p =>
    obtain ⟨x, rest⟩ := p
    rw [heq] at hstep
    dsimp only at hstep
    by_cases hle : x.finish ≤ s.nextArrival
    · rw [if_pos hle] at hstep
      by_cases hlt : x.finish < cfg.sim_time
      · rw [if_pos hlt] at hstep
        cases hstep
        exact busyInv_processCompletion hsvc h heq hle hlt
      · rw [if_neg hlt] at hstep
        cases hstep
    · rw [if_neg hle] at hstep
      by_cases hlt : s.nextArrival < cfg.sim_time
      · rw [if_pos hlt] at hstep
        cases hstep
        refine busyInv_processArrival hinter hsvc h hlt ?_
        intro y hy
        exact le_trans (le_of_not_le hle) (extractMin_min heq y hy)
      · rw [if_neg hlt] at hstep
        cases hstep

lemma busyInv_simSteps (cfg : SimConfig) (inter svc : ℕ → ℚ)
    (hT : 0 ≤ cfg.sim_time) (hinter : ∀ i, 0 ≤ inter i) (hsvc : ∀ i, 0 ≤ svc i)
    (n : ℕ) : busyInv cfg (simSteps cfg inter svc n) := by
  induction n with
  | zero => exact busyInv_init cfg inter hT hinter
  | succ n ih =>
    show busyInv cfg (simSteps cfg inter svc (n + 1))
    unfold simSteps
    cases hstep : stepSim cfg inter svc (simSteps cfg inter svc n) with
    | none => exact ih
    | some s2 => exact busyInv_step hinter hsvc ih hstep

/-- If the loop has stopped, every customer still holding a server has its
completion event scheduled at or after the horizon: exactly the services
truncated by `env.run(until=sim_time)`. -/
lemma finished_inService {cfg : SimConfig} {inter svc : ℕ → ℚ} {s : SimState}
    (h : stepSim cfg inter svc s = none) :
    ∀ x ∈ s.inService, cfg.sim_time ≤ x.finish := by
  unfold stepSim at h
  cases heq : extractMin s.inService with
  | none =>
    have hnil := extractMin_eq_none.mp heq
    simp [hnil]
  | some p =>
    obtain ⟨m, rest⟩ := p
    rw [heq] at h
    dsimp only at h
    by_cases hle : m.finish ≤ s.nextArrival
    · rw [if_pos hle] at h
      by_cases hlt : m.finish < cfg.sim_time
      · rw [if_pos hlt] at h
        cases h
      · intro x hx
        exact le_trans (le_of_not_lt hlt) (extractMin_min heq x hx)
    · rw [if_neg hle] at h
      by_cases hlt : s.nextArrival < cfg.sim_time
      · rw [if_pos hlt] at h
        cases h
      · intro x hx
        have h1 : cfg.sim_time ≤ s.nextArrival := le_of_not_lt hlt
        have h2 : s.nextArrival ≤ m.finish := le_of_lt (lt_of_not_ge hle)
        exact le_trans h1 (le_trans h2 (extractMin_min heq x hx))

/- ### Concrete run used to separate the horizon-truncation behaviour -/

/-- A small concrete configuration: one server, queue capacity 5, horizon 10. -/
def cexConfig : SimConfig :=
  { arrival_rate := 1, service_rate := 1, num_servers := 1, sim_time := 10, queue_capacity := 5 }

/-- Concrete inter-arrival draws: first arrival at time 1, the next 100 later. -/
def cexInter : ℕ → ℚ := fun i => if i = 0 then 1 else 100

/-- Concrete service draws: every service takes 100 time units. -/
def cexSvc : ℕ → ℚ := fun _ => 100

/- ### C1 -/

/-- **C1** fails on the code: in the run with one arrival at time 1 whose
service (duration 100) is still in progress when the clock would pass the
horizon 10, the run is complete after one event, one arrival was generated in
[0, 10), yet served + rejected = 0 ≠ 1 — the in-service customer is neither
served nor rejected. -/
theorem C1_counterexample :
    Finished cexConfig cexInter cexSvc 1 ∧
    (simSteps cexConfig cexInter cexSvc 1).customers_served
        + (simSteps cexConfig cexInter cexSvc 1).customers_rejected
      ≠ (simSteps cexConfig cexInter cexSvc 1).arrival_times.length := by
  constructor
  · norm_num [Finished, simSteps, stepSim, extractMin, processArrival, processCompletion,
      initState, cexConfig, cexInter, cexSvc, InService.finish]
  · norm_num [simSteps, stepSim, extractMin, processArrival, processCompletion,
      initState, cexConfig, cexInter, cexSvc, InService.finish]

/-- **C1** (amended): served + rejected + customers still waiting + customers
still in service always equals the number of arrival events generated during
[0, sim_time); the two counters alone undercount by the customers left in the
system when the horizon cuts the run. -/
theorem C1_amended_conservation (cfg : SimConfig) (inter svc : ℕ → ℚ) (n : ℕ) :
    (simSteps cfg inter svc n).customers_served
        + (simSteps cfg inter svc n).customers_rejected
        + (simSteps cfg inter svc n).queue.length
        + (simSteps cfg inter svc n).inService.length
      = (simSteps cfg inter svc n).arrival_times.length :=
  (countInv_simSteps cfg inter svc n).2.2.1

/- ### C3 -/

/-- **C3** fails on the code: in the same run, a service began at time 1
(before the horizon 10) with completion scheduled at 101 ≥ 10; the run is
complete, the drawn service time was recorded at service start, but no system
time was recorded and the served count stayed 0 — `env.run(until=sim_time)`
does not process completion events at or after the horizon. -/
theorem C3_counterexample :
    Finished cexConfig cexInter cexSvc 1 ∧
    (simSteps cexConfig cexInter cexSvc 1).inService = [⟨1, 1, 100⟩] ∧
    (simSteps cexConfig cexInter cexSvc 1).service_times = [100] ∧
    (simSteps cexConfig cexInter cexSvc 1).system_times = [] ∧
    (simSteps cexConfig cexInter cexSvc 1).customers_served = 0 := by
  refine ⟨?_, ?_, ?_, ?_, ?_⟩ <;>
    norm_num [Finished, simSteps, stepSim, extractMin, processArrival, processCompletion,
      initState, cexConfig, cexInter, cexSvc, InService.finish]

/-- **C3** (amended): when `run()` returns, every service whose completion
instant lies strictly before `sim_time` has been processed and recorded
(served count = number of recorded system times; every started service is
either completed or still in service), while every service still in progress
has its completion instant at or after `sim_time` — such services are
truncated, not allowed to finish. -/
theorem C3_amended_truncation (cfg : SimConfig) (inter svc : ℕ → ℚ) (n : ℕ)
    (h : Finished cfg inter svc n) :
    (simSteps cfg inter svc n).customers_served
        = (simSteps cfg inter svc n).system_times.length ∧
    (simSteps cfg inter svc n).service_times.length
        = (simSteps cfg inter svc n).customers_served
          + (simSteps cfg inter svc n).inService.length ∧
    ∀ x ∈ (simSteps cfg inter svc n).inService, cfg.sim_time ≤ x.finish := by
  refine ⟨(countInv_simSteps cfg inter svc n).2.2.2.1,
    (countInv_simSteps cfg inter svc n).2.2.2.2, ?_⟩
  exact finished_inService h

/-- Witness for the amended C3 at the concrete run: the truncated customer
`⟨1, 1, 100⟩` finishes at 101, at or after the horizon 10. -/
theorem C3_amended_truncation_witness :
    (simSteps cexConfig cexInter cexSvc 1).customers_served
        = (simSteps cexConfig cexInter cexSvc 1).system_times.length ∧
    (simSteps cexConfig cexInter cexSvc 1).service_times.length
        = (simSteps cexConfig cexInter cexSvc 1).customers_served
          + (simSteps cexConfig cexInter cexSvc 1).inService.length ∧
    cexConfig.sim_time ≤ InService.finish ⟨1, 1, 100⟩ := by
  obtain ⟨h1, h2, h3⟩ := C3_amended_truncation cexConfig cexInter cexSvc 1
    (by norm_num [Finished, simSteps, stepSim, extractMin, processArrival, processCompletion,
      initState, cexConfig, cexInter, cexSvc, InService.finish])
  refine ⟨h1, h2, h3 ⟨1, 1, 100⟩ ?_⟩
  norm_num [simSteps, stepSim, extractMin, processArrival, processCompletion,
    initState, cexConfig, cexInter, cexSvc, InService.finish]

/- ### C4 -/

/-- **C4**: at every simulated instant (the state changes only at processed
events, so after every scheduler iteration) the number of customers in
service is at most `num_servers` and the waiting line is at most
`queue_capacity`; the strict admission check preserves both bounds. -/
theorem C4_capacity_bounds (cfg : SimConfig) (inter svc : ℕ → ℚ) (n : ℕ) :
    (simSteps cfg inter svc n).inService.length ≤ cfg.num_servers ∧
    (simSteps cfg inter svc n).queue.length ≤ cfg.queue_capacity :=
  ⟨(countInv_simSteps cfg inter svc n).1, (countInv_simSteps cfg inter svc n).2.1⟩

/- ### C6 -/

/-- **C6**: for every run with `sim_time > 0` and `num_servers ≥ 1` (and
non-negative random draws, which is the codomain of `random.expovariate`), the
reported `server_utilization` — the banked busy time over
`num_servers · sim_time`, rounded to 4 digits — lies in [0, 1]. -/
theorem C6_utilization_unit_interval (cfg : SimConfig) (inter svc : ℕ → ℚ)
    (sqrtFn : ℚ → ℚ) (n : ℕ)
    (hT : 0 < cfg.sim_time) (hc : 1 ≤ cfg.num_servers)
    (hinter : ∀ i, 0 ≤ inter i) (hsvc : ∀ i, 0 ≤ svc i) :
    0 ≤ (calculate_metrics sqrtFn cfg (simSteps cfg inter svc n)).server_utilization ∧
    (calculate_metrics sqrtFn cfg (simSteps cfg inter svc n)).server_utilization ≤ 1 := by
  obtain ⟨h0, hna, hTn, hlen, hbusy, hmem, hsum⟩ :=
    busyInv_simSteps cfg inter svc (le_of_lt hT) hinter hsvc n
  have hsnn : 0 ≤ ((simSteps cfg inter svc n).inService.map
      (fun x => (simSteps cfg inter svc n).now - x.start)).sum :=
    sum_map_nonneg_rat _ _ (fun y hy => sub_nonneg.mpr (hmem y hy).2.1)
  have hone : (1 : ℚ) ≤ (cfg.num_servers : ℚ) := by exact_mod_cast hc
  have hcpos : (0 : ℚ) < (cfg.num_servers : ℚ) * cfg.sim_time := by nlinarith
  have hbb : (simSteps cfg inter svc n).server_busy_time
      ≤ (cfg.num_servers : ℚ) * cfg.sim_time := by
    have h1 : (simSteps cfg inter svc n).server_busy_time
        ≤ (cfg.num_servers : ℚ) * (simSteps cfg inter svc n).now := by linarith
    have h2 : (cfg.num_servers : ℚ) * (simSteps cfg inter svc n).now
        ≤ (cfg.num_servers : ℚ) * cfg.sim_time :=
      mul_le_mul_of_nonneg_left hTn (by positivity)
    linarith
  have hform : (calculate_metrics sqrtFn cfg (simSteps cfg inter svc n)).server_utilization
      = pyRound 4 ((simSteps cfg inter svc n).server_busy_time
          / ((cfg.num_servers : ℚ) * cfg.sim_time)) := by
    dsimp only [calculate_metrics]
    rw [if_pos hcpos]
  rw [hform]
  exact pyRound_unit_interval 4
    (div_nonneg hbusy (le_of_lt hcpos)) ((div_le_one hcpos).mpr hbb)

/-- Witness for C6 at a concrete stable run (two servers, horizon 480,
arrivals every 200 time units, services of 100). -/
theorem C6_utilization_witness :
    0 ≤ (calculate_metrics (fun q => q) ⟨2, 3, 2, 480, 50⟩
        (simSteps ⟨2, 3, 2, 480, 50⟩ (fun _ => 200) (fun _ => 100) 3)).server_utilization ∧
    (calculate_metrics (fun q => q) ⟨2, 3, 2, 480, 50⟩
        (simSteps ⟨2, 3, 2, 480, 50⟩ (fun _ => 200) (fun _ => 100) 3)).server_utilization ≤ 1 :=
  C6_utilization_unit_interval ⟨2, 3, 2, 480, 50⟩ (fun _ => 200) (fun _ => 100)
    (fun q => q) 3 (by norm_num) (by norm_num)
    (fun i => by norm_num) (fun i => by norm_num)

/- ### C2 -/

/-- **C2** fails on the code: the constructor accepts a fully malformed
configuration — negative arrival and service rates, negative server count,
negative horizon, negative queue capacity — and returns normally with the
values stored verbatim.  Nothing is raised: the repository defines no
`ConfigurationError` and `__init__`/`run` contain no validation. -/
theorem C2_counterexample :
    CafeteriaSimulation_init (-1) (-2) (-3) (-4) (-5)
      = Except.ok
          { arrival_rate := -1, service_rate := -2, num_servers := -3,
            sim_time := -4, queue_capacity := -5,
            customers_served := 0, customers_rejected := 0, wait_times := [],
            service_times := [], system_times := [], queue_lengths := [],
            arrival_times := [], server_busy_time := 0, max_queue_length := 0 } := rfl

/-- **C2** (amended): the engine performs no input validation at all — for
every parameter combination, malformed or not, construction succeeds and
simply stores the arguments; no `ConfigurationError` (or any other error) is
ever produced before the simulation starts. -/
theorem C2_amended_no_validation (a m : ℚ) (c : ℤ) (t : ℚ) (k : ℤ) :
    CafeteriaSimulation_init a m c t k
      = Except.ok
          { arrival_rate := a, service_rate := m, num_servers := c,
            sim_time := t, queue_capacity := k,
            customers_served := 0, customers_rejected := 0, wait_times := [],
            service_times := [], system_times := [], queue_lengths := [],
            arrival_times := [], server_busy_time := 0, max_queue_length := 0 } := rfl

/- ### The demand predictor (`ai_predictor.py`) -/

/-- Python's `max` over a non-empty list (0 on the empty list, which every
call site guards). -/
def pyMax : List ℚ → ℚ
  | [] => 0
  | x :: xs => xs.foldl max x

/-- `np.arange(0, stop, step)` for positive `step`: the values `j · step` for
`0 ≤ j < ⌈stop / step⌉`. -/
def npArange (stop step : ℚ) : List ℚ :=
  (List.range (⌈stop / step⌉.toNat)).map (fun j => (j : ℚ) * step)

/-- One bin of `np.histogram`: half-open `[lo, hi)` for every bin except the
last, which is closed `[lo, hi]`. -/
def binCount (data : List ℚ) (lo hi : ℚ) (isLast : Bool) : ℕ :=
  if isLast then (data.filter (fun t => decide (lo ≤ t ∧ t ≤ hi))).length
  else (data.filter (fun t => decide (lo ≤ t ∧ t < hi))).length

/-- `np.histogram(data, bins=edges)`: per-bin counts between consecutive
edges; values outside `[edges.head, edges.last]` are not counted. -/
def npHistogram (data edges : List ℚ) : List ℕ :=
  (List.range (edges.length - 1)).map (fun i =>
    binCount data (edges.getD i 0) (edges.getD (i + 1) 0) (i + 2 == edges.length))

/-- `DemandPredictor.prepare_time_series` (`ai_predictor.py` lines 80–97):
group the arrival timestamps into ~20 equal-width bins spanning
`[0, max(arrival_times)]` and count arrivals per bin; returns the bin indices
`X` and the counts `y`. -/
def prepare_time_series (arrival_times : List ℚ) : List ℕ × List ℕ :=
  if arrival_times = [] then ([], [])
  else
    let max_time := pyMax arrival_times
    let interval := max 1 (max_time / 20)
    let edges := npArange (max_time + interval) interval
    let counts := npHistogram arrival_times edges
    (List.range counts.length, counts)

/-- Ordinary least squares slope for points `(xs i, ys i)` — the closed form
of the line fitted by `sklearn.linear_model.LinearRegression` (unique for
distinct xs; the guard value 0 is never taken on the call sites, which pass
≥ 3 distinct indices). -/
def fitSlope (xs ys : List ℚ) : ℚ :=
  let n : ℚ := xs.length
  let sx := xs.sum
  let sy := ys.sum
  let sxy := ((xs.zip ys).map (fun p => p.1 * p.2)).sum
  let sxx := (xs.map (fun x => x * x)).sum
  if n * sxx - sx * sx = 0 then 0 else (n * sxy - sx * sy) / (n * sxx - sx * sx)

/-- Ordinary least squares intercept. -/
def fitIntercept (xs ys : List ℚ) : ℚ :=
  (ys.sum - fitSlope xs ys * xs.sum) / xs.length

/-- The R² formula on the two sums of squares: 1 − SSres/SStot, with
sklearn's degenerate conventions when SStot is zero (1 on a perfect fit,
0 otherwise). -/
def r2Aux (ssres sstot : ℚ) : ℚ :=
  if sstot = 0 then (if ssres = 0 then 1 else 0) else 1 - ssres / sstot

/-- `LinearRegression.score`: the coefficient of determination R². -/
def r2Score (xs ys : List ℚ) : ℚ :=
  let slope := fitSlope xs ys
  let intercept := fitIntercept xs ys
  let ssres := ((xs.zip ys).map (fun p => (p.2 - (slope * p.1 + intercept)) ^ 2)).sum
  let sstot := (ys.map (fun v => (v - npMean ys) ^ 2)).sum
  r2Aux ssres sstot

/-- `DemandPredictor.interpret_trend` (lines 99–108). -/
def interpret_trend (slope : ℚ) : String :=
  if slope > 1 / 10 then "increasing"
  else if slope < -(1 / 10) then "decreasing"
  else "stable"

/-- The dictionary returned by `DemandPredictor.analyze_patterns`
(lines 110–138).  The rounded diagnostic fields are absent (`none`) in the
fewer-than-10-timestamps branch. -/
structure Patterns where
  peak_detected : Bool
  peak_percentage : Option ℚ
  avg_interarrival : Option ℚ
  std_interarrival : Option ℚ
  periodicity : String
deriving DecidableEq, Repr

/-- `DemandPredictor.analyze_patterns` (lines 110–138): inter-arrival
intervals of the sorted timestamps; a "peak" is an interval below
mean − std.  `np.std`, irrational over ℚ, is the oracle `stdFn`. -/
def analyze_patterns (stdFn : List ℚ → ℚ) (arrival_times : List ℚ) : Patterns :=
  if arrival_times.length < 10 then
    { peak_detected := false, peak_percentage := none, avg_interarrival := none,
      std_interarrival := none, periodicity := "unknown" }
  else
    let sorted := arrival_times.mergeSort (fun a b => decide (a ≤ b))
    let intervals := (sorted.zip sorted.tail).map (fun p => p.2 - p.1)
    let mean_interval := npMean intervals
    let std_interval := stdFn intervals
    let peak_threshold := mean_interval - std_interval
    let peak_periods := (intervals.filter (fun t => decide (t < peak_threshold))).length
    let peak_percentage :=
      if 0 < intervals.length then (peak_periods : ℚ) / (intervals.length : ℚ) else 0
    { peak_detected := peak_percentage > 1 / 5
      peak_percentage := some (pyRound 2 peak_percentage)
      avg_interarrival := some (pyRound 2 mean_interval)
      std_interarrival := some (pyRound 2 std_interval)
      periodicity := if std_interval > mean_interval then "high_variability" else "regular" }

/-- The dictionary returned by `DemandPredictor.predict_demand`.  The
`slope`, `r_squared` and `patterns` keys are absent (`none`) in the two
insufficient-data branches.  (The `recommendations` key carries only
presentation-layer message strings — spec §4.4 — and is not modelled.) -/
structure PredictResult where
  predictions : List ℚ
  trend : String
  confidence : ℚ
  slope : Option ℚ
  r_squared : Option ℚ
  patterns : Option Patterns
deriving DecidableEq, Repr

/-- `DemandPredictor.predict_demand` (lines 23–78): with fewer than 5
timestamps, or fewer than 3 binned points, an insufficient-data result;
otherwise a line is fitted to (bin index, bin count) and evaluated at the
`forecast_periods` indices starting at `last_index = len(arrival_times)`
(line 56) — the raw-timestamp count, not a bin index. -/
def predict_demand (stdFn : List ℚ → ℚ) (arrival_times : List ℚ)
    (forecast_periods : ℕ) : PredictResult :=
  if arrival_times.length < 5 then
    { predictions := [], trend := "insufficient_data", confidence := 0,
      slope := none, r_squared := none, patterns := none }
  else
    let Xy := prepare_time_series arrival_times
    if Xy.1.length < 3 then
      { predictions := [], trend := "insufficient_data", confidence := 0,
        slope := none, r_squared := none, patterns := none }
    else
      let xs := Xy.1.map (fun i => (i : ℚ))
      let ys := Xy.2.map (fun c => (c : ℚ))
      let slope := fitSlope xs ys
      let intercept := fitIntercept xs ys
      let last_index := arrival_times.length
      let predictions := (List.range forecast_periods).map
        (fun j => pyRound 2 (slope * ((last_index + j : ℕ) : ℚ) + intercept))
      let confidence := r2Score xs ys
      { predictions := predictions
        trend := interpret_trend slope
        confidence := pyRound 4 confidence
        slope := some (pyRound 4 slope)
        r_squared := some (pyRound 4 confidence)
        patterns := some (analyze_patterns stdFn arrival_times) }

/-- Modelled from the spec for C5: the forecast as the spec words it —
evaluate the fitted line at the `forecast_periods` consecutive bin indices
immediately following the last fitted bin index (the bins are indexed
`0 … counts.length − 1`, so the next indices start at `counts.length`). -/
def predictionsPerSpec (arrival_times : List ℚ) (forecast_periods : ℕ) : List ℚ :=
  let counts := (prepare_time_series arrival_times).2
  let xs := (List.range counts.length).map (fun i => (i : ℚ))
  let ys := counts.map (fun c => (c : ℚ))
  (List.range forecast_periods).map
    (fun j => pyRound 2 (fitSlope xs ys * ((counts.length + j : ℕ) : ℚ) + fitIntercept xs ys))

/- ### C5 and C9 -/

/-- `pyRound` is the identity on rationals that are exact multiples of
1/100. -/
lemma pyRound2_int_mul (q : ℚ) (z : ℤ) (h : q * 10 ^ 2 = (z : ℚ)) : pyRound 2 q = q := by
  unfold pyRound
  rw [h, round_intCast]
  rw [← h]
  field_simp

/-- Evaluation of the binning stage on the concrete input `[0, 1, 2, 3, 4]`:
max 4, interval 1, edges 0…4, four bins with counts `[1, 1, 1, 2]` (the last
bin is right-closed and catches both 3 and 4). -/
lemma prepare_time_series_eval_01234 :
    prepare_time_series [0, 1, 2, 3, 4] = ([0, 1, 2, 3], [1, 1, 1, 2]) := by
  have hmax : pyMax [0, 1, 2, 3, 4] = 4 := by norm_num [pyMax]
  have h1 : max (1 : ℚ) (4 / 20) = 1 := by norm_num
  have h2 : (⌈((4 : ℚ) + 1) / 1⌉).toNat = 5 := by norm_num; decide
  have harange : npArange ((4 : ℚ) + 1) 1 = [0, 1, 2, 3, 4] := by
    rw [npArange, h2, show List.range 5 = [0, 1, 2, 3, 4] from rfl]
    norm_num [List.map_cons, List.map_nil]
  have hhist : npHistogram [0, 1, 2, 3, 4] [0, 1, 2, 3, 4] = [1, 1, 1, 2] := by decide
  unfold prepare_time_series
  rw [if_neg (by simp)]
  simp only [hmax, h1, harange, hhist]
  decide

/-- **C5** fails on the code: on the five timestamps `[0, 1, 2, 3, 4]` (4
binned points, fitted line count = 0.3·index + 0.8) the code evaluates the
line at indices 5…14 — `last_index = len(arrival_times)` (line 56) — whereas
the indices immediately following the last fitted bin index are 4…13; already
the first forecast value differs (2.3 vs 2.0). -/
theorem C5_counterexample :
    5 ≤ ([0, 1, 2, 3, 4] : List ℚ).length ∧
    3 ≤ (prepare_time_series [0, 1, 2, 3, 4]).1.length ∧
    (predict_demand (fun _ => 0) [0, 1, 2, 3, 4] 10).predictions
      ≠ predictionsPerSpec [0, 1, 2, 3, 4] 10 := by
  refine ⟨by norm_num, by rw [prepare_time_series_eval_01234]; norm_num, ?_⟩
  have hxs : (([0, 1, 2, 3] : List ℕ).map (fun i => (i : ℚ))) = [0, 1, 2, 3] := by norm_num
  have hys : (([1, 1, 1, 2] : List ℕ).map (fun c => (c : ℚ))) = [1, 1, 1, 2] := by norm_num
  have hsl : fitSlope [0, 1, 2, 3] [1, 1, 1, 2] = 3 / 10 := by norm_num [fitSlope]
  have hic : fitIntercept [0, 1, 2, 3] [1, 1, 1, 2] = 4 / 5 := by
    norm_num [fitIntercept, fitSlope]
  have hcode : (predict_demand (fun _ => 0) [0, 1, 2, 3, 4] 10).predictions
      = (List.range 10).map (fun j => pyRound 2 ((3 / 10) * ((5 + j : ℕ) : ℚ) + 4 / 5)) := by
    unfold predict_demand
    rw [if_neg (by norm_num)]
    simp only [prepare_time_series_eval_01234]
    rw [if_neg (by norm_num)]
    simp only [hxs, hys, hsl, hic, List.length_cons, List.length_nil]
  have hspec : predictionsPerSpec [0, 1, 2, 3, 4] 10
      = (List.range 10).map (fun j => pyRound 2 ((3 / 10) * ((4 + j : ℕ) : ℚ) + 4 / 5)) := by
    unfold predictionsPerSpec
    simp only [prepare_time_series_eval_01234]
    rw [show List.range ([1, 1, 1, 2] : List ℕ).length = [0, 1, 2, 3] from rfl]
    simp only [hxs, hys, hsl, hic, List.length_cons, List.length_nil]
  rw [hcode, hspec]
  intro heq
  have h0 := congrArg (fun l => l.getD 0 0) heq
  simp only [List.range_succ_eq_map, List.map_cons, List.getD_cons_zero] at h0
  have e1 : pyRound 2 ((3 / 10) * (((5 : ℕ) + (0 : ℕ) : ℕ) : ℚ) + 4 / 5) = 23 / 10 := by
    have hv : ((3 : ℚ) / 10) * (((5 + 0 : ℕ) : ℚ)) + 4 / 5 = 23 / 10 := by norm_num
    rw [hv]
    exact pyRound2_int_mul _ 230 (by norm_num)
  have e2 : pyRound 2 ((3 / 10) * (((4 : ℕ) + (0 : ℕ) : ℕ) : ℚ) + 4 / 5) = 2 := by
    have hv : ((3 : ℚ) / 10) * (((4 + 0 : ℕ) : ℚ)) + 4 / 5 = 2 := by norm_num
    rw [hv]
    exact pyRound2_int_mul _ 200 (by norm_num)
  rw [e1, e2] at h0
  norm_num at h0

/-- **C5** (amended): with ≥ 5 timestamps and ≥ 3 binned points the
prediction list has exactly `forecast_periods` entries, each the fitted line
evaluated (and rounded to 2 digits) at the consecutive indices starting at
`len(arrival_times)` — the raw-timestamp count — not at the index following
the last fitted bin. -/
theorem C5_amended_prediction_indices (stdFn : List ℚ → ℚ) (ats : List ℚ) (fp : ℕ)
    (h5 : 5 ≤ ats.length) (h3 : 3 ≤ (prepare_time_series ats).1.length) :
    (predict_demand stdFn ats fp).predictions.length = fp ∧
    (predict_demand stdFn ats fp).predictions
      = (List.range fp).map (fun j =>
          pyRound 2
            (fitSlope ((prepare_time_series ats).1.map (fun i => (i : ℚ)))
                  ((prepare_time_series ats).2.map (fun c => (c : ℚ)))
                * ((ats.length + j : ℕ) : ℚ)
              + fitIntercept ((prepare_time_series ats).1.map (fun i => (i : ℚ)))
                  ((prepare_time_series ats).2.map (fun c => (c : ℚ))))) := by
  have hne1 : ¬ ats.length < 5 := by omega
  have hne2 : ¬ (prepare_time_series ats).1.length < 3 := by omega
  have hval : (predict_demand stdFn ats fp).predictions
      = (List.range fp).map (fun j =>
          pyRound 2
            (fitSlope ((prepare_time_series ats).1.map (fun i => (i : ℚ)))
                  ((prepare_time_series ats).2.map (fun c => (c : ℚ)))
                * ((ats.length + j : ℕ) : ℚ)
              + fitIntercept ((prepare_time_series ats).1.map (fun i => (i : ℚ)))
                  ((prepare_time_series ats).2.map (fun c => (c : ℚ))))) := by
    unfold predict_demand
    rw [if_neg hne1]
    dsimp only
    rw [if_neg hne2]
  refine ⟨?_, hval⟩
  rw [hval]
  simp

/-- Witness for the amended C5 at the concrete input `[0, 1, 2, 3, 4]` with
the default 10 forecast periods. -/
theorem C5_amended_prediction_indices_witness :
    (predict_demand (fun _ => 0) [0, 1, 2, 3, 4] 10).predictions.length = 10 ∧
    (predict_demand (fun _ => 0) [0, 1, 2, 3, 4] 10).predictions
      = (List.range 10).map (fun j =>
          pyRound 2
            (fitSlope ((prepare_time_series [0, 1, 2, 3, 4]).1.map (fun i => (i : ℚ)))
                  ((prepare_time_series [0, 1, 2, 3, 4]).2.map (fun c => (c : ℚ)))
                * ((([0, 1, 2, 3, 4] : List ℚ).length + j : ℕ) : ℚ)
              + fitIntercept ((prepare_time_series [0, 1, 2, 3, 4]).1.map (fun i => (i : ℚ)))
                  ((prepare_time_series [0, 1, 2, 3, 4]).2.map (fun c => (c : ℚ))))) :=
  C5_amended_prediction_indices (fun _ => 0) [0, 1, 2, 3, 4] 10 (by norm_num)
    (by rw [prepare_time_series_eval_01234]; norm_num)

/-- **C9**: with fewer than 5 arrival timestamps `predict_demand` returns the
insufficient-data record — empty predictions, trend "insufficient_data",
confidence 0 (and no slope/R²/patterns keys) — and, being a total function,
raises nothing. -/
theorem C9_insufficient_data (stdFn : List ℚ → ℚ) (ats : List ℚ) (fp : ℕ)
    (h : ats.length < 5) :
    predict_demand stdFn ats fp
      = { predictions := [], trend := "insufficient_data", confidence := 0,
          slope := none, r_squared := none, patterns := none } := by
  unfold predict_demand
  rw [if_pos h]

/-- Witness for C9 on three timestamps. -/
theorem C9_insufficient_data_witness :
    predict_demand (fun _ => 0) [2, 4, 6] 10
      = { predictions := [], trend := "insufficient_data", confidence := 0,
          slope := none, r_squared := none, patterns := none } :=
  C9_insufficient_data (fun _ => 0) [2, 4, 6] 10 (by norm_num)

/- ### The statistical analysis module (`statistics.py`) -/

/-- `np.min` of a list (guarded by the call sites to be non-empty). -/
def npMin : List ℚ → ℚ
  | [] => 0
  | x :: xs => xs.foldl min x

/-- `np.max` of a list (guarded by the call sites to be non-empty). -/
def npMax : List ℚ → ℚ
  | [] => 0
  | x :: xs => xs.foldl max x

/-- `np.percentile(l, p)` with numpy's default linear interpolation between
the order statistics at fractional position `(n − 1) · p / 100`. -/
def npPercentile (l : List ℚ) (p : ℚ) : ℚ :=
  let s := l.mergeSort (fun a b => decide (a ≤ b))
  if s.length = 0 then 0
  else
    let pos := ((s.length : ℚ) - 1) * p / 100
    let k := (⌊pos⌋).toNat
    let frac := pos - (⌊pos⌋ : ℚ)
    let lower := s.getD k 0
    let upper := s.getD (k + 1) (s.getD k 0)
    lower + frac * (upper - lower)

/-- `np.median`, which equals the 50th linear-interpolation percentile. -/
def npMedian (l : List ℚ) : ℚ := npPercentile l 50

/-- The numerical kernels of scipy/numpy used by `StatisticalAnalysis` that
are irrational (or defined by special functions) over ℚ, passed in as
oracles: `np.sqrt`, `scipy.stats.skew`, `scipy.stats.kurtosis`,
`scipy.stats.shapiro`, `scipy.stats.kstest(..., 'expon', args=(0, scale))`,
`scipy.stats.sem`, `scipy.stats.t.ppf(q, df)`, `scipy.stats.ttest_1samp`
(returning (statistic, p-value) pairs) and `scipy.stats.pearsonr`. -/
structure StatOracles where
  sqrtFn : ℚ → ℚ
  skew : List ℚ → ℚ
  kurtosis : List ℚ → ℚ
  shapiro : List ℚ → ℚ × ℚ
  kstestExpon : List ℚ → ℚ → ℚ × ℚ
  sem : List ℚ → ℚ
  tppf : ℚ → ℕ → ℚ
  ttest1samp : List ℚ → ℚ → ℚ × ℚ
  pearsonr : List ℚ → List ℚ → ℚ × ℚ

/-- The wait-time half of `descriptive_statistics` (lines 43–54). -/
structure DescStatsWait where
  mean : ℚ
  median : ℚ
  std : ℚ
  variance : ℚ
  min : ℚ
  max : ℚ
  q25 : ℚ
  q75 : ℚ
  skewness : ℚ
  kurtosis : ℚ
deriving DecidableEq, Repr

/-- The service-time half of `descriptive_statistics` (lines 55–62). -/
structure DescStatsService where
  mean : ℚ
  median : ℚ
  std : ℚ
  variance : ℚ
  min : ℚ
  max : ℚ
deriving DecidableEq, Repr

/-- The result of `descriptive_statistics` (lines 35–63). -/
structure DescriptiveStats where
  wait_times : DescStatsWait
  service_times : DescStatsService
deriving DecidableEq, Repr

/-- `StatisticalAnalysis.descriptive_statistics` (lines 35–63): every field
guards the empty sample (returning 0); skewness/kurtosis need > 2 samples. -/
def descriptive_statistics (o : StatOracles) (wt st : List ℚ) : DescriptiveStats :=
  { wait_times :=
      { mean := if 0 < wt.length then pyRound 2 (npMean wt) else 0
        median := if 0 < wt.length then pyRound 2 (npMedian wt) else 0
        std := if 0 < wt.length then pyRound 2 (o.sqrtFn (npVar wt)) else 0
        variance := if 0 < wt.length then pyRound 2 (npVar wt) else 0
        min := if 0 < wt.length then pyRound 2 (npMin wt) else 0
        max := if 0 < wt.length then pyRound 2 (npMax wt) else 0
        q25 := if 0 < wt.length then pyRound 2 (npPercentile wt 25) else 0
        q75 := if 0 < wt.length then pyRound 2 (npPercentile wt 75) else 0
        skewness := if 2 < wt.length then pyRound 2 (o.skew wt) else 0
        kurtosis := if 2 < wt.length then pyRound 2 (o.kurtosis wt) else 0 }
    service_times :=
      { mean := if 0 < st.length then pyRound 2 (npMean st) else 0
        median := if 0 < st.length then pyRound 2 (npMedian st) else 0
        std := if 0 < st.length then pyRound 2 (o.sqrtFn (npVar st)) else 0
        variance := if 0 < st.length then pyRound 2 (npVar st) else 0
        min := if 0 < st.length then pyRound 2 (npMin st) else 0
        max := if 0 < st.length then pyRound 2 (npMax st) else 0 } }

/-- One goodness-of-fit entry of `test_distributions`: the test name, its
statistic and p-value (rounded to 4 digits), and the boolean conclusion at
the 0.05 level (`is_normal` resp. `is_exponential`). -/
structure FitTest where
  test : String
  statistic : ℚ
  p_value : ℚ
  conclusion : Bool
deriving DecidableEq, Repr

/-- The dictionary returned by `test_distributions` (lines 65–96); each key
is absent (`none`) when its sample guard fails. -/
structure Distributions where
  wait_times_normality : Option FitTest
  service_times_exponential : Option FitTest
deriving DecidableEq, Repr

/-- `StatisticalAnalysis.test_distributions` (lines 65–96): Shapiro–Wilk on
the wait times (≥ 3 samples, capped at the first 5000) and Kolmogorov–Smirnov
against an exponential with the sample mean as scale (≥ 3 samples and a
positive mean). -/
def test_distributions (o : StatOracles) (wt st : List ℚ) : Distributions :=
  { wait_times_normality :=
      if 3 ≤ wt.length then
        let r := o.shapiro (wt.take (min wt.length 5000))
        some { test := "Shapiro-Wilk", statistic := pyRound 4 r.1,
               p_value := pyRound 4 r.2, conclusion := r.2 > 1 / 20 }
      else none
    service_times_exponential :=
      if 3 ≤ st.length then
        if npMean st > 0 then
          let r := o.kstestExpon st (npMean st)
          some { test := "Kolmogorov-Smirnov", statistic := pyRound 4 r.1,
                 p_value := pyRound 4 r.2, conclusion := r.2 > 1 / 20 }
        else none
      else none }

/-- The `wait_time_ci` entry of `confidence_intervals` (lines 111–119). -/
structure ConfidenceInterval where
  confidence_level : ℚ
  mean : ℚ
  lower_bound : ℚ
  upper_bound : ℚ
  margin_of_error : ℚ
deriving DecidableEq, Repr

/-- `StatisticalAnalysis.confidence_intervals` (lines 98–119): with fewer
than 2 samples the empty dictionary (`none`); otherwise the t-interval with
margin `sem · t.ppf((1 + confidence)/2, n − 1)` around the sample mean. -/
def confidence_intervals (o : StatOracles) (wt : List ℚ) (confidence : ℚ) :
    Option ConfidenceInterval :=
  if wt.length < 2 then none
  else
    let mean := npMean wt
    let std_error := o.sem wt
    let margin := std_error * o.tppf ((1 + confidence) / 2) (wt.length - 1)
    some { confidence_level := confidence
           mean := pyRound 2 mean
           lower_bound := pyRound 2 (mean - margin)
           upper_bound := pyRound 2 (mean + margin)
           margin_of_error := pyRound 2 margin }

/-- The `wait_time_ttest` entry of `hypothesis_tests` (lines 132–138); the
`null_hypothesis` message string is presentation only and not modelled. -/
structure TTestResult where
  t_statistic : ℚ
  p_value : ℚ
  reject_null : Bool
  actual_mean : ℚ
deriving DecidableEq, Repr

/-- `StatisticalAnalysis.hypothesis_tests` (lines 121–140): one-sample t-test
of the wait-time mean against 5.0, requiring ≥ 2 samples. -/
def hypothesis_tests (o : StatOracles) (wt : List ℚ) : Option TTestResult :=
  if 2 ≤ wt.length then
    let r := o.ttest1samp wt 5
    some { t_statistic := pyRound 4 r.1, p_value := pyRound 4 r.2,
           reject_null := r.2 < 1 / 20, actual_mean := pyRound 2 (npMean wt) }
  else none

/-- `StatisticalAnalysis.interpret_correlation` (lines 166–179). -/
def interpret_correlation (r : ℚ) : String :=
  let strength := if |r| < 3 / 10 then "débil" else if |r| < 7 / 10 then "moderada" else "fuerte"
  let direction := if r > 0 then "positiva" else "negativa"
  "Correlación " ++ strength ++ " " ++ direction

/-- The `wait_vs_service` entry of `correlation_analysis` (lines 156–162). -/
structure CorrelationResult where
  correlation_coefficient : ℚ
  p_value : ℚ
  interpretation : String
deriving DecidableEq, Repr

/-- `StatisticalAnalysis.correlation_analysis` (lines 142–164): Pearson
correlation of the two series truncated to their common length, requiring
≥ 2 samples of each. -/
def correlation_analysis (o : StatOracles) (wt st : List ℚ) : Option CorrelationResult :=
  if wt.length < 2 ∨ st.length < 2 then none
  else
    let m := min wt.length st.length
    let r := o.pearsonr (wt.take m) (st.take m)
    some { correlation_coefficient := pyRound 4 r.1, p_value := pyRound 4 r.2,
           interpretation := interpret_correlation r.1 }

/-- The report returned by `StatisticalAnalysis.analyze` (lines 23–33). -/
structure StatReport where
  descriptive_stats : DescriptiveStats
  distributions : Distributions
  confidence_intervals : Option ConfidenceInterval
  hypothesis_tests : Option TTestResult
  correlation : Option CorrelationResult
deriving DecidableEq, Repr

/-- `StatisticalAnalysis(results).analyze()` (lines 15–33): the constructor
extracts exactly the `wait_times` and `service_times` fields of the result
bundle, and every sub-analysis is computed from those two series alone. -/
def StatisticalAnalysis_analyze (o : StatOracles) (results : SimResults) : StatReport :=
  let wt := results.wait_times
  let st := results.service_times
  { descriptive_stats := descriptive_statistics o wt st
    distributions := test_distributions o wt st
    confidence_intervals := confidence_intervals o wt (95 / 100)
    hypothesis_tests := hypothesis_tests o wt
    correlation := correlation_analysis o wt st }

/- ### C7 -/

/-- **C7**: truncation to the first 100 entries touches only the four raw
series of the output bundle; every aggregate field equals the aggregate of
the full, untruncated series (and the counters/maximum are taken verbatim),
so the truncation leaves every previously computed aggregate unchanged. -/
theorem C7_truncation_only_in_bundle (sqrtFn : ℚ → ℚ) (cfg : SimConfig) (s : SimState) :
    (calculate_metrics sqrtFn cfg s).customers_served = s.customers_served ∧
    (calculate_metrics sqrtFn cfg s).customers_rejected = s.customers_rejected ∧
    (calculate_metrics sqrtFn cfg s).avg_wait_time
        = pyRound 2 (if s.wait_times ≠ [] then npMean s.wait_times else 0) ∧
    (calculate_metrics sqrtFn cfg s).avg_service_time
        = pyRound 2 (if s.service_times ≠ [] then npMean s.service_times else 0) ∧
    (calculate_metrics sqrtFn cfg s).avg_system_time
        = pyRound 2 (if s.system_times ≠ [] then npMean s.system_times else 0) ∧
    (calculate_metrics sqrtFn cfg s).avg_queue_length
        = pyRound 2 (if s.queue_lengths ≠ [] then
            npMean (s.queue_lengths.map (fun n => (n : ℚ))) else 0) ∧
    (calculate_metrics sqrtFn cfg s).max_queue_length = s.max_queue_length ∧
    (calculate_metrics sqrtFn cfg s).server_utilization
        = pyRound 4 (if (cfg.num_servers : ℚ) * cfg.sim_time > 0 then
            s.server_busy_time / ((cfg.num_servers : ℚ) * cfg.sim_time) else 0) ∧
    (calculate_metrics sqrtFn cfg s).var_wait_time
        = pyRound 2 (if 1 < s.wait_times.length then npVar s.wait_times else 0) ∧
    (calculate_metrics sqrtFn cfg s).var_service_time
        = pyRound 2 (if 1 < s.service_times.length then npVar s.service_times else 0) ∧
    (calculate_metrics sqrtFn cfg s).std_wait_time
        = pyRound 2 (sqrtFn (if 1 < s.wait_times.length then npVar s.wait_times else 0)) ∧
    (calculate_metrics sqrtFn cfg s).std_service_time
        = pyRound 2 (sqrtFn (if 1 < s.service_times.length then npVar s.service_times else 0)) ∧
    (calculate_metrics sqrtFn cfg s).effective_arrival_rate
        = pyRound 4 (if cfg.sim_time > 0 then
            (s.arrival_times.length : ℚ) / cfg.sim_time else 0) ∧
    (calculate_metrics sqrtFn cfg s).rejection_probability
        = pyRound 4 (if 0 < s.customers_served + s.customers_rejected then
            (s.customers_rejected : ℚ)
              / ((s.customers_served + s.customers_rejected : ℕ) : ℚ) else 0) ∧
    (calculate_metrics sqrtFn cfg s).wait_times = (s.wait_times.take 100).map (pyRound 2) ∧
    (calculate_metrics sqrtFn cfg s).service_times
        = (s.service_times.take 100).map (pyRound 2) ∧
    (calculate_metrics sqrtFn cfg s).queue_lengths = s.queue_lengths.take 100 ∧
    (calculate_metrics sqrtFn cfg s).arrival_times
        = (s.arrival_times.take 100).map (pyRound 2) :=
  ⟨rfl, rfl, rfl, rfl, rfl, rfl, rfl, rfl, rfl, rfl, rfl, rfl, rfl, rfl, rfl, rfl, rfl, rfl⟩

/- ### C8 -/

/-- **C8**: for a wait-time sample with ≥ 2 points the confidence-interval
entry exists and satisfies lower_bound ≤ mean ≤ upper_bound (the margin is
`sem · t.ppf((1 + confidence)/2, n − 1)`; both factors of the margin are
non-negative for the actual scipy kernels — `sem` is a square root and the
t-quantile at (1 + 0.95)/2 > 1/2 is positive — which the oracle hypotheses
record); with fewer than 2 points the empty dictionary is returned instead
of raising. -/
theorem C8_confidence_interval_bounds (o : StatOracles) (wt : List ℚ) (confidence : ℚ)
    (hsem : 0 ≤ o.sem wt)
    (htq : 0 ≤ o.tppf ((1 + confidence) / 2) (wt.length - 1)) :
    (2 ≤ wt.length →
      ∃ ci, confidence_intervals o wt confidence = some ci ∧
        ci.lower_bound ≤ ci.mean ∧ ci.mean ≤ ci.upper_bound) ∧
    (wt.length < 2 → confidence_intervals o wt confidence = none) := by
  constructor
  · intro h2
    have hneg : ¬ wt.length < 2 := by omega
    have hm : 0 ≤ o.sem wt * o.tppf ((1 + confidence) / 2) (wt.length - 1) :=
      mul_nonneg hsem htq
    unfold confidence_intervals
    rw [if_neg hneg]
    refine ⟨_, rfl, ?_, ?_⟩
    · exact pyRound_mono 2 (by linarith)
    · exact pyRound_mono 2 (by linarith)
  · intro h2
    unfold confidence_intervals
    rw [if_pos h2]

/-- Witness for C8 at a two-point sample with a dummy oracle (`sem = 1`,
t-quantile = 2), and the empty-result half at a one-point sample. -/
theorem C8_confidence_interval_bounds_witness :
    (2 ≤ ([1, 2] : List ℚ).length →
      ∃ ci, confidence_intervals
          ⟨fun q => q, fun _ => 0, fun _ => 0, fun _ => (0, 0), fun _ _ => (0, 0),
            fun _ => 1, fun _ _ => 2, fun _ _ => (0, 0), fun _ _ => (0, 0)⟩
          [1, 2] (95 / 100) = some ci ∧
        ci.lower_bound ≤ ci.mean ∧ ci.mean ≤ ci.upper_bound) ∧
    (([1, 2] : List ℚ).length < 2 → confidence_intervals
          ⟨fun q => q, fun _ => 0, fun _ => 0, fun _ => (0, 0), fun _ _ => (0, 0),
            fun _ => 1, fun _ _ => 2, fun _ _ => (0, 0), fun _ _ => (0, 0)⟩
          [1, 2] (95 / 100) = none) :=
  C8_confidence_interval_bounds
    ⟨fun q => q, fun _ => 0, fun _ => 0, fun _ => (0, 0), fun _ _ => (0, 0),
      fun _ => 1, fun _ _ => 2, fun _ _ => (0, 0), fun _ _ => (0, 0)⟩
    [1, 2] (95 / 100) (by norm_num) (by norm_num)

/- ### C10 -/

/-- **C10**: the statistical module consumes exactly the `wait_times` and
`service_times` fields of the result bundle — two bundles agreeing on those
two fields yield identical reports — and, along the pipeline of
`app.py`, those fields are the first-100, 2-digit-rounded truncations of the
raw series, so every reported statistic depends only on the truncated,
rounded observations. -/
theorem C10_analyze_uses_truncated_bundle_series (o : StatOracles) (r1 r2 : SimResults)
    (sqrtFn : ℚ → ℚ) (cfg : SimConfig) (s : SimState)
    (hw : r1.wait_times = r2.wait_times) (hs : r1.service_times = r2.service_times) :
    StatisticalAnalysis_analyze o r1 = StatisticalAnalysis_analyze o r2 ∧
    (calculate_metrics sqrtFn cfg s).wait_times = (s.wait_times.take 100).map (pyRound 2) ∧
    (calculate_metrics sqrtFn cfg s).service_times
        = (s.service_times.take 100).map (pyRound 2) := by
  refine ⟨?_, rfl, rfl⟩
  unfold StatisticalAnalysis_analyze
  rw [hw, hs]

/-- Witness for C10 on a concrete bundle produced by the aggregator itself. -/
theorem C10_analyze_uses_truncated_bundle_series_witness :
    StatisticalAnalysis_analyze
        ⟨fun q => q, fun _ => 0, fun _ => 0, fun _ => (0, 0), fun _ _ => (0, 0),
          fun _ => 1, fun _ _ => 2, fun _ _ => (0, 0), fun _ _ => (0, 0)⟩
        (calculate_metrics (fun q => q) ⟨1, 1, 1, 10, 5⟩ (initState (fun _ => 1)))
      = StatisticalAnalysis_analyze
        ⟨fun q => q, fun _ => 0, fun _ => 0, fun _ => (0, 0), fun _ _ => (0, 0),
          fun _ => 1, fun _ _ => 2, fun _ _ => (0, 0), fun _ _ => (0, 0)⟩
        (calculate_metrics (fun q => q) ⟨1, 1, 1, 10, 5⟩ (initState (fun _ => 1))) ∧
    (calculate_metrics (fun q => q) ⟨1, 1, 1, 10, 5⟩
        (initState (fun _ => 1))).wait_times
      = ((initState (fun _ => (1 : ℚ))).wait_times.take 100).map (pyRound 2) ∧
    (calculate_metrics (fun q => q) ⟨1, 1, 1, 10, 5⟩
        (initState (fun _ => 1))).service_times
      = ((initState (fun _ => (1 : ℚ))).service_times.take 100).map (pyRound 2) :=
  C10_analyze_uses_truncated_bundle_series
    ⟨fun q => q, fun _ => 0, fun _ => 0, fun _ => (0, 0), fun _ _ => (0, 0),
      fun _ => 1, fun _ _ => 2, fun _ _ => (0, 0), fun _ _ => (0, 0)⟩
    (calculate_metrics (fun q => q) ⟨1, 1, 1, 10, 5⟩ (initState (fun _ => 1)))
    (calculate_metrics (fun q => q) ⟨1, 1, 1, 10, 5⟩ (initState (fun _ => 1)))
    (fun q => q) ⟨1, 1, 1, 10, 5⟩ (initState (fun _ => 1)) rfl rfl
